import Mathlib

/-!
Verification of the stability-study sample generator
(`Stability_Study_Form.py`).

The sample-generation engine (`create_sample_record`,
`generate_stability_samples`, and the transportation-tab expansion) is
embedded as pure Lean functions.  Numeric inputs (concentrations,
time-point values) are modelled as rationals; the extra-vial counts as
integers.  Python's string formatting of a number (`f"{x}"`) is modelled
by the canonical decimal rendering `natRender` / `ratRender`, which is
injective and draws its characters from digits plus `-` and `/` — the
properties of Python's numeric rendering that the statements and proofs
rely on.  Python truthiness tests (`if not time_pt`, `x if x else y`)
are translated explicitly (`= 0` for numbers, `= ""` for strings,
`none`/`some 0` falsy for optionals).
-/

/-- Decimal digits of `n`, least significant first, computed with explicit
fuel so that the definition is structural and reduces in the kernel. -/
def digitsAux : Nat → Nat → List Nat
  | _, 0 => []
  | 0, _ + 1 => []
  | fuel + 1, n + 1 => (n + 1) % 10 :: digitsAux fuel ((n + 1) / 10)

/-- Decimal digits of `n`, least significant first (`0` has no digits). -/
def natDigitsRev (n : Nat) : List Nat := digitsAux n n

/-- Reassemble a number from its least-significant-first digit list. -/
def undigitsRev : List Nat → Nat
  | [] => 0
  | d :: ds => d + 10 * undigitsRev ds

theorem digitsAux_spec (fuel : Nat) : ∀ n : Nat, n ≤ fuel →
    undigitsRev (digitsAux fuel n) = n := by
  induction fuel with
  | zero =>
    intro n hn
    interval_cases n
    rfl
  | succ f ih =>
    intro n hn
    match n with
    | 0 => rfl
    | m + 1 =>
      have hlt : (m + 1) / 10 < m + 1 := Nat.div_lt_self (Nat.succ_pos m) (by norm_num)
      have hle : (m + 1) / 10 ≤ f := by omega
      simp only [digitsAux, undigitsRev, ih _ hle]
      omega

theorem undigitsRev_natDigitsRev (n : Nat) : undigitsRev (natDigitsRev n) = n :=
  digitsAux_spec n n (Nat.le_refl n)

theorem natDigitsRev_inj {n m : Nat} (h : natDigitsRev n = natDigitsRev m) : n = m := by
  have := undigitsRev_natDigitsRev n
  rw [h, undigitsRev_natDigitsRev] at this
  exact this.symm

theorem digitsAux_lt (fuel : Nat) : ∀ n : Nat, ∀ d ∈ digitsAux fuel n, d < 10 := by
  induction fuel with
  | zero =>
    intro n d hd
    match n with
    | 0 => simp [digitsAux] at hd
    | m + 1 => simp [digitsAux] at hd
  | succ f ih =>
    intro n d hd
    match n with
    | 0 => simp [digitsAux] at hd
    | m + 1 =>
      simp only [digitsAux, List.mem_cons] at hd
      rcases hd with h | h
      · omega
      · exact ih _ d h

theorem natDigitsRev_lt (n : Nat) : ∀ d ∈ natDigitsRev n, d < 10 :=
  digitsAux_lt n n

theorem natDigitsRev_ne_nil {n : Nat} (hn : n ≠ 0) : natDigitsRev n ≠ [] := by
  match n with
  | 0 => exact absurd rfl hn
  | m + 1 => simp [natDigitsRev, digitsAux]

/-- Decimal rendering of a natural number (Python `str` on a non-negative
integer). -/
def natRender (n : Nat) : String :=
  if n = 0 then "0" else ⟨(natDigitsRev n).reverse.map Nat.digitChar⟩

theorem digitChar_fin_inj : ∀ a b : Fin 10, Nat.digitChar a.val = Nat.digitChar b.val → a = b := by
  decide

theorem digitChar_inj_of_lt {a b : Nat} (ha : a < 10) (hb : b < 10)
    (h : Nat.digitChar a = Nat.digitChar b) : a = b := by
  have := digitChar_fin_inj ⟨a, ha⟩ ⟨b, hb⟩ h
  exact congrArg Fin.val this

theorem digitChar_isDigit_of_lt {d : Nat} (hd : d < 10) : (Nat.digitChar d).isDigit = true := by
  interval_cases d <;> decide

theorem map_digitChar_inj : ∀ l₁ l₂ : List Nat, (∀ d ∈ l₁, d < 10) → (∀ d ∈ l₂, d < 10) →
    l₁.map Nat.digitChar = l₂.map Nat.digitChar → l₁ = l₂ := by
  intro l₁
  induction l₁ with
  | nil =>
    intro l₂ _ _ h
    match l₂ with
    | [] => rfl
    | _ :: _ => simp at h
  | cons a t ih =>
    intro l₂ h₁ h₂ h
    match l₂ with
    | [] => simp at h
    | b :: t₂ =>
      simp only [List.map_cons, List.cons.injEq] at h
      have ha : a < 10 := h₁ a (List.mem_cons_self _ _)
      have hb : b < 10 := h₂ b (List.mem_cons_self _ _)
      have hab : a = b := digitChar_inj_of_lt ha hb h.1
      have ht : t = t₂ := ih t₂ (fun d hd => h₁ d (List.mem_cons_of_mem _ hd))
        (fun d hd => h₂ d (List.mem_cons_of_mem _ hd)) h.2
      rw [hab, ht]

theorem natRender_isDigit (n : Nat) : ∀ c ∈ (natRender n).data, c.isDigit = true := by
  unfold natRender
  split
  · intro c hc
    simp only [String.data] at hc
    simp only [show ("0" : String).data = ['0'] from rfl, List.mem_singleton] at hc
    subst hc
    decide
  · intro c hc
    simp only [String.data] at hc
    simp only [List.mem_map, List.mem_reverse] at hc
    obtain ⟨d, hd, rfl⟩ := hc
    exact digitChar_isDigit_of_lt (natDigitsRev_lt n d hd)

theorem natRender_ne_nil (n : Nat) : (natRender n).data ≠ [] := by
  unfold natRender
  split
  · simp [show ("0" : String).data = ['0'] from rfl]
  · next hn =>
    simp only [String.data]
    intro h
    rw [List.map_eq_nil_iff, List.reverse_eq_nil_iff] at h
    exact natDigitsRev_ne_nil hn h

theorem natRender_inj {n m : Nat} (h : natRender n = natRender m) : n = m := by
  have hdata : (natRender n).data = (natRender m).data := by rw [h]
  unfold natRender at hdata
  by_cases hn : n = 0 <;> by_cases hm : m = 0
  · rw [hn, hm]
  · exfalso
    rw [if_pos hn, if_neg hm] at hdata
    simp only [String.data] at hdata
    have h0 : ['0'] = (natDigitsRev m).reverse.map Nat.digitChar := by
      simpa [show ("0" : String).data = ['0'] from rfl] using hdata
    have : [(0 : Nat)] = (natDigitsRev m).reverse := by
      apply map_digitChar_inj
      · intro d hd; simp at hd; omega
      · intro d hd; exact natDigitsRev_lt m d (List.mem_reverse.mp hd)
      · simpa using h0
    have hrev : natDigitsRev m = [0] := by
      have := congrArg List.reverse this
      simpa using this.symm
    have := undigitsRev_natDigitsRev m
    rw [hrev] at this
    simp [undigitsRev] at this
    exact hm this.symm
  · exfalso
    rw [if_neg hn, if_pos hm] at hdata
    simp only [String.data] at hdata
    have h0 : ['0'] = (natDigitsRev n).reverse.map Nat.digitChar := by
      simpa [show ("0" : String).data = ['0'] from rfl] using hdata.symm
    have : [(0 : Nat)] = (natDigitsRev n).reverse := by
      apply map_digitChar_inj
      · intro d hd; simp at hd; omega
      · intro d hd; exact natDigitsRev_lt n d (List.mem_reverse.mp hd)
      · simpa using h0
    have hrev : natDigitsRev n = [0] := by
      have := congrArg List.reverse this
      simpa using this.symm
    have := undigitsRev_natDigitsRev n
    rw [hrev] at this
    simp [undigitsRev] at this
    exact hn this.symm
  · rw [if_neg hn, if_neg hm] at hdata
    simp only [String.data] at hdata
    have : (natDigitsRev n).reverse = (natDigitsRev m).reverse := by
      apply map_digitChar_inj
      · intro d hd; exact natDigitsRev_lt n d (List.mem_reverse.mp hd)
      · intro d hd; exact natDigitsRev_lt m d (List.mem_reverse.mp hd)
      · exact hdata
    exact natDigitsRev_inj (List.reverse_injective this)

/-- Decimal rendering of a rational (Python numeric formatting: sign,
then the integer digits, then a fractional part for non-integers). -/
def ratRender (q : ℚ) : String :=
  (if q < 0 then "-" else "") ++ natRender q.num.natAbs ++
    (if q.den = 1 then "" else "/" ++ natRender q.den)

theorem strData_append (s t : String) : (s ++ t).data = s.data ++ t.data := by
  cases s
  cases t
  rfl

theorem strData_inj {s t : String} (h : s.data = t.data) : s = t := by
  cases s
  cases t
  exact congrArg String.mk h

theorem ratRender_data (q : ℚ) : (ratRender q).data =
    (if q < 0 then ['-'] else []) ++ (natRender q.num.natAbs).data ++
      (if q.den = 1 then [] else '/' :: (natRender q.den).data) := by
  unfold ratRender
  rw [strData_append, strData_append]
  congr 1
  · congr 1
    split <;> rfl
  · split
    · rfl
    · rw [strData_append]
      rfl

theorem ratRender_chars (q : ℚ) :
    ∀ c ∈ (ratRender q).data, c.isDigit = true ∨ c = '-' ∨ c = '/' := by
  intro c hc
  rw [ratRender_data] at hc
  simp only [List.append_assoc, List.mem_append] at hc
  rcases hc with hc | hc | hc
  · right; left
    split at hc <;> simp_all
  · exact Or.inl (natRender_isDigit _ c hc)
  · split at hc
    · simp at hc
    · rcases List.mem_cons.mp hc with h | h
      · right; right; exact h
      · exact Or.inl (natRender_isDigit _ c h)

theorem ratRender_head (q : ℚ) : ∃ c l, (ratRender q).data = c :: l ∧
    (c.isDigit = true ∨ c = '-') := by
  rw [ratRender_data]
  by_cases hq : q < 0
  · rw [if_pos hq]
    exact ⟨'-', _, rfl, Or.inr rfl⟩
  · rw [if_neg hq]
    obtain ⟨c, l, hl⟩ : ∃ c l, (natRender q.num.natAbs).data = c :: l := by
      cases h : (natRender q.num.natAbs).data with
      | nil => exact absurd h (natRender_ne_nil _)
      | cons c l => exact ⟨c, l, rfl⟩
    refine ⟨c, l ++ (if q.den = 1 then [] else '/' :: (natRender q.den).data), ?_, Or.inl ?_⟩
    · rw [hl]
      simp
    · exact natRender_isDigit _ c (hl ▸ List.mem_cons_self _ _)

theorem append_cons_inj_left {α : Type} {x : α} :
    ∀ {a c : List α} {b d : List α}, x ∉ a → x ∉ c →
      a ++ x :: b = c ++ x :: d → a = c ∧ b = d := by
  intro a
  induction a with
  | nil =>
    intro c b d _ hxc h
    match c with
    | [] => simpa using h
    | y :: c₂ =>
      exfalso
      simp only [List.nil_append, List.cons_append, List.cons.injEq] at h
      apply hxc
      rw [h.1]
      exact List.mem_cons_self _ _
  | cons y a₂ ih =>
    intro c b d hxa hxc h
    match c with
    | [] =>
      exfalso
      simp only [List.cons_append, List.nil_append, List.cons.injEq] at h
      apply hxa
      rw [← h.1]
      exact List.mem_cons_self _ _
    | z :: c₂ =>
      simp only [List.cons_append, List.cons.injEq] at h
      have := ih (fun hx => hxa (List.mem_cons_of_mem _ hx))
        (fun hx => hxc (List.mem_cons_of_mem _ hx)) h.2
      exact ⟨by rw [h.1, this.1], this.2⟩

theorem append_cons_inj_right {α : Type} {x : α} :
    ∀ {a c : List α} {b d : List α}, x ∉ b → x ∉ d →
      a ++ x :: b = c ++ x :: d → a = c ∧ b = d := by
  intro a
  induction a with
  | nil =>
    intro c b d hxb _ h
    match c with
    | [] => simpa using h
    | y :: c₂ =>
      exfalso
      simp only [List.nil_append, List.cons_append, List.cons.injEq] at h
      apply hxb
      rw [h.2]
      exact List.mem_append_right _ (List.mem_cons_self _ _)
  | cons y a₂ ih =>
    intro c b d hxb hxd h
    match c with
    | [] =>
      exfalso
      simp only [List.cons_append, List.nil_append, List.cons.injEq] at h
      apply hxd
      rw [← h.2]
      exact List.mem_append_right _ (List.mem_cons_self _ _)
    | z :: c₂ =>
      simp only [List.cons_append, List.cons.injEq] at h
      have := ih hxb hxd h.2
      exact ⟨by rw [h.1, this.1], this.2⟩

theorem slash_not_mem_natRender (n : Nat) : '/' ∉ (natRender n).data := by
  intro h
  have := natRender_isDigit n '/' h
  simp at this

theorem rat_num_lt_zero_iff (q : ℚ) : q.num < 0 ↔ q < 0 := by
  rw [← not_le, ← not_le, Rat.num_nonneg]

theorem ratRender_inj {q₁ q₂ : ℚ} (h : ratRender q₁ = ratRender q₂) : q₁ = q₂ := by
  have hdata := congrArg String.data h
  rw [ratRender_data, ratRender_data] at hdata
  -- the sign parts agree: a string starting with a digit never starts with '-'
  have hsign : (q₁ < 0 ↔ q₂ < 0) := by
    constructor
    · intro h₁
      by_contra h₂
      rw [if_pos h₁, if_neg h₂] at hdata
      obtain ⟨c, l, hl⟩ : ∃ c l, (natRender q₂.num.natAbs).data = c :: l := by
        cases hh : (natRender q₂.num.natAbs).data with
        | nil => exact absurd hh (natRender_ne_nil _)
        | cons c l => exact ⟨c, l, rfl⟩
      rw [hl] at hdata
      simp only [List.nil_append, List.cons_append, List.cons.injEq] at hdata
      have hd := natRender_isDigit q₂.num.natAbs c (hl ▸ List.mem_cons_self _ _)
      rw [← hdata.1] at hd
      simp at hd
    · intro h₂
      by_contra h₁
      rw [if_neg h₁, if_pos h₂] at hdata
      obtain ⟨c, l, hl⟩ : ∃ c l, (natRender q₁.num.natAbs).data = c :: l := by
        cases hh : (natRender q₁.num.natAbs).data with
        | nil => exact absurd hh (natRender_ne_nil _)
        | cons c l => exact ⟨c, l, rfl⟩
      rw [hl] at hdata
      simp only [List.nil_append, List.cons_append, List.cons.injEq] at hdata
      have hd := natRender_isDigit q₁.num.natAbs c (hl ▸ List.mem_cons_self _ _)
      rw [hdata.1] at hd
      simp at hd
  -- cancel the sign part
  have hbody : (natRender q₁.num.natAbs).data ++
      (if q₁.den = 1 then [] else '/' :: (natRender q₁.den).data) =
      (natRender q₂.num.natAbs).data ++
      (if q₂.den = 1 then [] else '/' :: (natRender q₂.den).data) := by
    by_cases h₁ : q₁ < 0
    · have h₂ : q₂ < 0 := hsign.mp h₁
      rw [if_pos h₁, if_pos h₂] at hdata
      simpa using hdata
    · have h₂ : ¬ q₂ < 0 := fun hh => h₁ (hsign.mpr hh)
      rw [if_neg h₁, if_neg h₂] at hdata
      simpa using hdata
  -- split the body at the '/'
  have habs : q₁.num.natAbs = q₂.num.natAbs ∧ q₁.den = q₂.den := by
    by_cases d₁ : q₁.den = 1 <;> by_cases d₂ : q₂.den = 1
    · rw [if_pos d₁, if_pos d₂, List.append_nil, List.append_nil] at hbody
      exact ⟨natRender_inj (strData_inj hbody), by rw [d₁, d₂]⟩
    · exfalso
      rw [if_pos d₁, if_neg d₂, List.append_nil] at hbody
      apply slash_not_mem_natRender q₁.num.natAbs
      rw [hbody]
      exact List.mem_append_right _ (List.mem_cons_self _ _)
    · exfalso
      rw [if_neg d₁, if_pos d₂, List.append_nil] at hbody
      apply slash_not_mem_natRender q₂.num.natAbs
      rw [← hbody]
      exact List.mem_append_right _ (List.mem_cons_self _ _)
    · rw [if_neg d₁, if_neg d₂] at hbody
      have := append_cons_inj_left (slash_not_mem_natRender _)
        (slash_not_mem_natRender _) hbody
      exact ⟨natRender_inj (strData_inj this.1), natRender_inj (strData_inj this.2)⟩
  -- reconstruct the rational from sign, |num| and den
  have hnum : q₁.num = q₂.num := by
    have hs := hsign
    rw [← rat_num_lt_zero_iff, ← rat_num_lt_zero_iff] at hs
    have := habs.1
    omega
  have : q₁ = (q₁.num : ℚ) / (q₁.den : ℚ) := (Rat.num_div_den q₁).symm
  rw [this, hnum, habs.2, Rat.num_div_den q₂]

/-- Python's `str.strip()`: remove leading and trailing whitespace. -/
def pyStrip (s : String) : String :=
  ⟨((s.data.dropWhile Char.isWhitespace).reverse.dropWhile Char.isWhitespace).reverse⟩

/-- One output row: the dictionary built by `create_sample_record`
(LabKey format).  The `Time Point` cell is modelled by its rendered
text (the generator writes the number `0`, the current time-point value,
or the empty string into it). -/
structure SampleRecord where
  parent : String
  description : String
  label : String
  microLabel : String
  sampleDate : String
  timePoint : String
  timePointUnits : String
  conc : ℚ
  storageTemp : String
  dsTemperature : String
  formulation : String
  experimentId : String
  vialOrientation : String
  transportation : String
  freezeThawCount : String
  deriving DecidableEq

/-- `create_sample_record`: build a single sample record.  The `label`
argument is passed by every caller but unused — the label text is
recomputed from the same format string as the description. -/
def create_sample_record (exp_id molecule source formulation parent create_date : String)
    (conc : ℚ)
    (label micro_label time_pt time_unit temp temp_ds vial_o transport freeze_thaw : String) :
    SampleRecord :=
  let description := pyStrip (molecule ++ " " ++ source ++ ", " ++ formulation ++ ", " ++
    ratRender conc ++ " mg/mL, " ++ micro_label ++ " " ++ vial_o)
  let label_text := pyStrip (molecule ++ " " ++ source ++ ", " ++ formulation ++ ", " ++
    ratRender conc ++ " mg/mL, " ++ micro_label ++ " " ++ vial_o)
  { parent := parent
    description := description
    label := label_text
    microLabel := micro_label
    sampleDate := create_date
    timePoint := time_pt
    timePointUnits := time_unit
    conc := conc
    storageTemp := temp
    dsTemperature := temp_ds
    formulation := formulation
    experimentId := exp_id
    vialOrientation := vial_o
    transportation := transport
    freezeThawCount := freeze_thaw }

/-- `prnt = formulation_parent if formulation_parent else parent`
(Python string truthiness: the empty string is falsy). -/
def resolvedParent (formulation_parent parent : String) : String :=
  if formulation_parent = "" then parent else formulation_parent

/-- `cnc = formulation_conc if formulation_conc else conc`
(Python truthiness: `None` and `0` are falsy). -/
def resolvedConc (formulation_conc : Option ℚ) (conc : ℚ) : ℚ :=
  match formulation_conc with
  | none => conc
  | some c => if c = 0 then conc else c

/-- The per-formulation concentration collected by the form:
`form_conc if form_conc > 0 else None`. -/
def formConcOverride (form_conc : ℚ) : Option ℚ :=
  if form_conc > 0 then some form_conc else none

/-- The unit suffix of a matrix micro-label (week/month/year other). -/
def unitSuffix (time_unit : String) : String :=
  if time_unit = "week" then "w"
  else if time_unit = "month" then "m"
  else if time_unit = "year" then "y"
  else ""

/-- `t0_time_unit = time_units[0] if time_units and time_units[0] else ""`. -/
def t0TimeUnit (time_units : List String) : String :=
  match time_units with
  | [] => ""
  | u :: _ => if u = "" then "" else u

/-- The full parameter list of one `generate_stability_samples` call. -/
structure GenInput where
  exp_id : String
  molecule : String
  source : String
  parent : String
  create_date : String
  conc : ℚ
  formulation : String
  formulation_parent : String
  formulation_conc : Option ℚ
  time_points : List ℚ
  time_units : List String
  temperatures : List String
  vial_orientations : List String
  matrix : List (List Bool)
  extra_vials : List Int
  study_type : String
  deriving DecidableEq

/-- `generate_stability_samples`, translated statement by statement: the
`samples` accumulator starts with the T0 record, then the time-point ×
temperature loop appends the matrix-expansion records, then the
extra-vial loop appends the extras. -/
def generate_stability_samples (a : GenInput) : List SampleRecord :=
  let prnt := resolvedParent a.formulation_parent a.parent
  let cnc := resolvedConc a.formulation_conc a.conc
  -- T0 sample
  let t0_label := if a.study_type = "DP" then "t0" else "t0, DS"
  let t0_time_unit := t0TimeUnit a.time_units
  let samples : List SampleRecord :=
    [] ++ [create_sample_record a.exp_id a.molecule a.source a.formulation prnt a.create_date
      cnc t0_label t0_label (ratRender 0) t0_time_unit "" "" "" "" ""]
  -- Time point samples
  let samples := a.time_points.enum.foldl (fun acc p =>
    if p.2 = 0 then acc
    else
      let time_unit := a.time_units.getD p.1 ""
      a.temperatures.enum.foldl (fun acc2 p2 =>
        if p2.2 = "" then acc2
        else if (a.matrix.getD p.1 []).getD p2.1 false then
          let vial_o := a.vial_orientations.getD p2.1 ""
          let micro_label := if a.study_type = "DP"
            then p2.2 ++ ", " ++ ratRender p.2 ++ unitSuffix time_unit
            else p2.2 ++ ", " ++ ratRender p.2 ++ unitSuffix time_unit ++ " DS"
          let temp_field := if a.study_type = "DP" then p2.2 else ""
          let temp_ds_field := if a.study_type = "DS" then p2.2 else ""
          acc2 ++ [create_sample_record a.exp_id a.molecule a.source a.formulation prnt
            a.create_date cnc micro_label micro_label (ratRender p.2) time_unit temp_field
            temp_ds_field vial_o "" ""]
        else acc2) acc) samples
  -- Extra vials
  let samples := a.temperatures.enum.foldl (fun acc p =>
    if p.2 = "" then acc
    else
      let extra_count := a.extra_vials.getD p.1 0
      let vial_o := a.vial_orientations.getD p.1 ""
      (List.range extra_count.toNat).foldl (fun acc2 k =>
        let micro_label := p.2 ++ ", extra" ++ natRender (k + 1)
        let temp_field := if a.study_type = "DP" then p.2 else ""
        let temp_ds_field := if a.study_type = "DS" then p.2 else ""
        acc2 ++ [create_sample_record a.exp_id a.molecule a.source a.formulation prnt
          a.create_date cnc micro_label micro_label "" "" temp_field temp_ds_field
          vial_o "" ""]) acc) samples
  samples

/-- The T0 record of a call. -/
def t0Record (a : GenInput) : SampleRecord :=
  create_sample_record a.exp_id a.molecule a.source a.formulation
    (resolvedParent a.formulation_parent a.parent) a.create_date
    (resolvedConc a.formulation_conc a.conc)
    (if a.study_type = "DP" then "t0" else "t0, DS")
    (if a.study_type = "DP" then "t0" else "t0, DS")
    (ratRender 0) (t0TimeUnit a.time_units) "" "" "" "" ""

/-- The matrix-expansion record for time point index `i` (value
`time_pt`) and temperature index `j` (label `temp`). -/
def matrixRecord (a : GenInput) (i : Nat) (time_pt : ℚ) (j : Nat) (temp : String) :
    SampleRecord :=
  let time_unit := a.time_units.getD i ""
  let micro_label := if a.study_type = "DP"
    then temp ++ ", " ++ ratRender time_pt ++ unitSuffix time_unit
    else temp ++ ", " ++ ratRender time_pt ++ unitSuffix time_unit ++ " DS"
  create_sample_record a.exp_id a.molecule a.source a.formulation
    (resolvedParent a.formulation_parent a.parent) a.create_date
    (resolvedConc a.formulation_conc a.conc)
    micro_label micro_label (ratRender time_pt) time_unit
    (if a.study_type = "DP" then temp else "")
    (if a.study_type = "DS" then temp else "")
    (a.vial_orientations.getD j "") "" ""

/-- All matrix-expansion records of a call, in emission order. -/
def matrixRecords (a : GenInput) : List SampleRecord :=
  a.time_points.enum.flatMap (fun p =>
    if p.2 = 0 then []
    else a.temperatures.enum.flatMap (fun p2 =>
      if p2.2 = "" then []
      else if (a.matrix.getD p.1 []).getD p2.1 false then
        [matrixRecord a p.1 p.2 p2.1 p2.2]
      else []))

/-- The `k`-th extra-vial record (micro-label suffix `extra{k+1}`) for
temperature index `j` (label `temp`). -/
def extraRecord (a : GenInput) (j : Nat) (temp : String) (k : Nat) : SampleRecord :=
  create_sample_record a.exp_id a.molecule a.source a.formulation
    (resolvedParent a.formulation_parent a.parent) a.create_date
    (resolvedConc a.formulation_conc a.conc)
    (temp ++ ", extra" ++ natRender (k + 1))
    (temp ++ ", extra" ++ natRender (k + 1)) "" ""
    (if a.study_type = "DP" then temp else "")
    (if a.study_type = "DS" then temp else "")
    (a.vial_orientations.getD j "") "" ""

/-- The extra-vial records emitted for temperature index `j`. -/
def extraRecordsFor (a : GenInput) (j : Nat) (temp : String) : List SampleRecord :=
  if temp = "" then []
  else (List.range (a.extra_vials.getD j 0).toNat).map (fun k => extraRecord a j temp k)

/-- All extra-vial records of a call, in emission order. -/
def extraRecords (a : GenInput) : List SampleRecord :=
  a.temperatures.enum.flatMap (fun p => extraRecordsFor a p.1 p.2)

/-- The four-entry transportation vocabulary, in emission order. -/
def transportationVocab : List String :=
  ["Control", "Transport Rep 1", "Transport Rep 2", "Transport Rep 3"]

/-- The `micro_map` lookup of the transportation tab (only ever applied
to the four vocabulary entries). -/
def transportMicro (transport_label : String) : String :=
  if transport_label = "Control" then "ctrl"
  else if transport_label = "Transport Rep 1" then "trans1"
  else if transport_label = "Transport Rep 2" then "trans2"
  else if transport_label = "Transport Rep 3" then "trans3"
  else ""

/-- The records appended for one base formulation by the transportation
generation: the 4-entry base expansion, then a 4-entry expansion per
surfactant with the surfactant name concatenated onto the formulation
name. -/
def transportation_samples (exp_id molecule source parent create_date : String) (conc : ℚ)
    (formulation formulation_parent : String) (formulation_conc : Option ℚ)
    (surfactants : List String) : List SampleRecord :=
  let prnt := resolvedParent formulation_parent parent
  let cnc := resolvedConc formulation_conc conc
  let base := transportationVocab.map (fun transport_label =>
    create_sample_record exp_id molecule source formulation prnt create_date cnc
      transport_label (transportMicro transport_label) "" "" "" "" "" transport_label "")
  let surf := surfactants.flatMap (fun s =>
    transportationVocab.map (fun transport_label =>
      create_sample_record exp_id molecule source (formulation ++ s) prnt create_date cnc
        transport_label (transportMicro transport_label) "" "" "" "" "" transport_label ""))
  base ++ surf

/-- The count of selected in-range matrix cells: `true` cells whose
indices lie within both the time-point and the temperature list lengths,
excluding cells with a zero time-point value or an empty temperature
label. -/
def selectedCellCount (time_points : List ℚ) (temperatures : List String)
    (matrix : List (List Bool)) : Nat :=
  ((List.range time_points.length).map (fun i =>
    ((List.range temperatures.length).map (fun j =>
      if time_points.getD i 0 ≠ 0 ∧ temperatures.getD j "" ≠ "" ∧
          (matrix.getD i []).getD j false = true then 1 else 0)).sum)).sum

theorem foldl_pointwise_append {α β : Type} {f : List β → α → List β} {g : α → List β}
    (hf : ∀ acc x, f acc x = acc ++ g x) :
    ∀ (l : List α) (init : List β), List.foldl f init l = init ++ l.flatMap g := by
  intro l
  induction l with
  | nil =>
    intro init
    simp
  | cons x t ih =>
    intro init
    rw [List.foldl_cons, hf, ih]
    simp [List.flatMap_cons]

theorem flatMap_singleton_map {α β : Type} (f : α → β) (l : List α) :
    l.flatMap (fun x => [f x]) = l.map f := by
  induction l with
  | nil => rfl
  | cons x t ih => simp [List.flatMap_cons, ih]

theorem matrix_fold_eq (a : GenInput) (init : List SampleRecord) :
    List.foldl (fun acc p =>
      if p.2 = 0 then acc
      else
        List.foldl (fun acc2 p2 =>
          if p2.2 = "" then acc2
          else if (a.matrix.getD p.1 []).getD p2.1 false then
            acc2 ++ [create_sample_record a.exp_id a.molecule a.source a.formulation
              (resolvedParent a.formulation_parent a.parent) a.create_date
              (resolvedConc a.formulation_conc a.conc)
              (if a.study_type = "DP"
                then p2.2 ++ ", " ++ ratRender p.2 ++ unitSuffix (a.time_units.getD p.1 "")
                else p2.2 ++ ", " ++ ratRender p.2 ++ unitSuffix (a.time_units.getD p.1 "") ++
                  " DS")
              (if a.study_type = "DP"
                then p2.2 ++ ", " ++ ratRender p.2 ++ unitSuffix (a.time_units.getD p.1 "")
                else p2.2 ++ ", " ++ ratRender p.2 ++ unitSuffix (a.time_units.getD p.1 "") ++
                  " DS")
              (ratRender p.2) (a.time_units.getD p.1 "")
              (if a.study_type = "DP" then p2.2 else "")
              (if a.study_type = "DS" then p2.2 else "")
              (a.vial_orientations.getD p2.1 "") "" ""]
          else acc2) acc a.temperatures.enum) init a.time_points.enum
    = init ++ matrixRecords a := by
  simp only [matrixRecords]
  refine foldl_pointwise_append ?_ _ _
  intro acc p
  by_cases hp : p.2 = 0
  · simp [hp]
  · rw [if_neg hp, if_neg hp]
    refine @foldl_pointwise_append _ _ _
      (fun p2 : Nat × String => if p2.2 = "" then []
        else if (a.matrix.getD p.1 []).getD p2.1 false then
          [matrixRecord a p.1 p.2 p2.1 p2.2]
        else []) ?_ _ _
    intro acc2 p2
    by_cases h2 : p2.2 = ""
    · simp only [if_pos h2, List.append_nil]
    · by_cases h3 : (a.matrix.getD p.1 []).getD p2.1 false
      · simp only [if_neg h2, if_pos h3]
        rfl
      · simp only [if_neg h2, if_neg h3, List.append_nil]

theorem extra_fold_eq (a : GenInput) (init : List SampleRecord) :
    List.foldl (fun acc p =>
      if p.2 = "" then acc
      else
        List.foldl (fun acc2 k =>
          acc2 ++ [create_sample_record a.exp_id a.molecule a.source a.formulation
            (resolvedParent a.formulation_parent a.parent) a.create_date
            (resolvedConc a.formulation_conc a.conc)
            (p.2 ++ ", extra" ++ natRender (k + 1)) (p.2 ++ ", extra" ++ natRender (k + 1))
            "" "" (if a.study_type = "DP" then p.2 else "")
            (if a.study_type = "DS" then p.2 else "")
            (a.vial_orientations.getD p.1 "") "" ""]) acc
          (List.range (a.extra_vials.getD p.1 0).toNat)) init a.temperatures.enum
    = init ++ extraRecords a := by
  simp only [extraRecords, extraRecordsFor]
  refine foldl_pointwise_append ?_ _ _
  intro acc p
  by_cases hp : p.2 = ""
  · simp [hp]
  · rw [if_neg hp, if_neg hp]
    refine (@foldl_pointwise_append _ _ _
      (fun k => [extraRecord a p.1 p.2 k]) ?_ _ _).trans ?_
    · intro acc2 k
      rfl
    · rw [flatMap_singleton_map]

theorem generate_eq_phases (a : GenInput) :
    generate_stability_samples a = t0Record a :: (matrixRecords a ++ extraRecords a) := by
  simp only [generate_stability_samples]
  rw [matrix_fold_eq, extra_fold_eq]
  simp [t0Record]

theorem mem_matrixRecords {a : GenInput} {r : SampleRecord} :
    r ∈ matrixRecords a ↔ ∃ p ∈ a.time_points.enum, ∃ p2 ∈ a.temperatures.enum,
      p.2 ≠ 0 ∧ p2.2 ≠ "" ∧ (a.matrix.getD p.1 []).getD p2.1 false = true ∧
      r = matrixRecord a p.1 p.2 p2.1 p2.2 := by
  simp only [matrixRecords, List.mem_flatMap]
  constructor
  · rintro ⟨p, hp, hr⟩
    by_cases h0 : p.2 = 0
    · rw [if_pos h0] at hr
      simp at hr
    · rw [if_neg h0, List.mem_flatMap] at hr
      obtain ⟨p2, hp2, hr⟩ := hr
      by_cases h2 : p2.2 = ""
      · rw [if_pos h2] at hr
        simp at hr
      · rw [if_neg h2] at hr
        by_cases h3 : (a.matrix.getD p.1 []).getD p2.1 false
        · rw [if_pos h3] at hr
          rw [List.mem_singleton] at hr
          exact ⟨p, hp, p2, hp2, h0, h2, h3, hr⟩
        · rw [if_neg h3] at hr
          simp at hr
  · rintro ⟨p, hp, p2, hp2, h0, h2, h3, rfl⟩
    refine ⟨p, hp, ?_⟩
    rw [if_neg h0, List.mem_flatMap]
    refine ⟨p2, hp2, ?_⟩
    rw [if_neg h2, if_pos h3]
    exact List.mem_singleton.mpr rfl

theorem mem_extraRecords {a : GenInput} {r : SampleRecord} :
    r ∈ extraRecords a ↔ ∃ p ∈ a.temperatures.enum, p.2 ≠ "" ∧
      ∃ k < (a.extra_vials.getD p.1 0).toNat, r = extraRecord a p.1 p.2 k := by
  simp only [extraRecords, extraRecordsFor, List.mem_flatMap]
  constructor
  · rintro ⟨p, hp, hr⟩
    by_cases h2 : p.2 = ""
    · rw [if_pos h2] at hr
      simp at hr
    · rw [if_neg h2, List.mem_map] at hr
      obtain ⟨k, hk, hr⟩ := hr
      exact ⟨p, hp, h2, k, List.mem_range.mp hk, hr.symm⟩
  · rintro ⟨p, hp, h2, k, hk, rfl⟩
    refine ⟨p, hp, ?_⟩
    rw [if_neg h2, List.mem_map]
    exact ⟨k, List.mem_range.mpr hk, rfl⟩

theorem getD_mem_enumFrom {α : Type} (d : α) :
    ∀ (l : List α) (n i : Nat), i < l.length → (n + i, l.getD i d) ∈ l.enumFrom n := by
  intro l
  induction l with
  | nil =>
    intro n i hi
    simp at hi
  | cons x t ih =>
    intro n i hi
    match i with
    | 0 =>
      simp [List.enumFrom_cons]
    | i + 1 =>
      rw [List.enumFrom_cons]
      refine List.mem_cons_of_mem _ ?_
      have := ih (n + 1) i (by simpa using Nat.lt_of_succ_lt_succ hi)
      simpa [Nat.add_assoc, Nat.add_comm 1 i] using this

theorem getD_mem_enum {α : Type} (d : α) (l : List α) (i : Nat) (hi : i < l.length) :
    (i, l.getD i d) ∈ l.enum := by
  have := getD_mem_enumFrom d l 0 i hi
  simpa [List.enum] using this

theorem mem_enum_lt_length {α : Type} :
    ∀ {l : List α} {n : Nat} {p : Nat × α}, p ∈ l.enumFrom n → p.1 - n < l.length ∧ n ≤ p.1 := by
  intro l
  induction l with
  | nil =>
    intro n p hp
    simp at hp
  | cons x t ih =>
    intro n p hp
    rw [List.enumFrom_cons, List.mem_cons] at hp
    rcases hp with rfl | hp
    · simp
    · have := ih hp
      simp only [List.length_cons]
      omega

theorem enum_getD {α : Type} (d : α) :
    ∀ {l : List α} {n : Nat} {p : Nat × α}, p ∈ l.enumFrom n → l.getD (p.1 - n) d = p.2 := by
  intro l
  induction l with
  | nil =>
    intro n p hp
    simp at hp
  | cons x t ih =>
    intro n p hp
    rw [List.enumFrom_cons, List.mem_cons] at hp
    rcases hp with rfl | hp
    · simp
    · have h1 := ih hp
      have h2 := mem_enum_lt_length hp
      have hsub : p.1 - n = (p.1 - (n + 1)) + 1 := by omega
      rw [hsub]
      simpa using h1

theorem conc_of_mem {a : GenInput} {r : SampleRecord}
    (hr : r ∈ generate_stability_samples a) :
    r.conc = resolvedConc a.formulation_conc a.conc := by
  rw [generate_eq_phases] at hr
  rcases List.mem_cons.mp hr with rfl | hr
  · rfl
  · rcases List.mem_append.mp hr with hm | he
    · obtain ⟨p, _, p2, _, _, _, _, rfl⟩ := mem_matrixRecords.mp hm
      rfl
    · obtain ⟨p, _, _, k, _, rfl⟩ := mem_extraRecords.mp he
      rfl

/-- The spec's worked example input (§8): context EXP1/mAb1/SrcA/P1,
2024-01-01, default concentration 100; one DP formulation F1 with no
overrides; one temperature 2-8°C with orientation upright and no extra
vials; one time point 1 month; selection matrix [[true]]. -/
def exampleInput : GenInput where
  exp_id := "EXP1"
  molecule := "mAb1"
  source := "SrcA"
  parent := "P1"
  create_date := "2024-01-01"
  conc := 100
  formulation := "F1"
  formulation_parent := ""
  formulation_conc := none
  time_points := [1]
  time_units := ["month"]
  temperatures := ["2-8°C"]
  vial_orientations := ["upright"]
  matrix := [[true]]
  extra_vials := [0]
  study_type := "DP"

/-- C6: on the spec's worked example the generator returns exactly two
records: first the T0 record with micro-label `t0`, then one matrix
record with micro-label `2-8°C, 1m`, vial orientation `upright` and
storage temperature `2-8°C`. -/
theorem C6_worked_example :
    (generate_stability_samples exampleInput).length = 2 ∧
    (generate_stability_samples exampleInput).map
        (fun r => (r.microLabel, r.vialOrientation, r.storageTemp)) =
      [("t0", "", ""), ("2-8°C, 1m", "upright", "2-8°C")] := by
  decide

theorem t0Record_microLabel (a : GenInput) :
    (t0Record a).microLabel = if a.study_type = "DP" then "t0" else "t0, DS" := rfl

theorem t0Record_storageTemp (a : GenInput) : (t0Record a).storageTemp = "" := rfl

theorem t0Record_dsTemperature (a : GenInput) : (t0Record a).dsTemperature = "" := rfl

theorem t0Record_vialOrientation (a : GenInput) : (t0Record a).vialOrientation = "" := rfl

theorem matrixRecord_microLabel (a : GenInput) (i : Nat) (tp : ℚ) (j : Nat) (temp : String) :
    (matrixRecord a i tp j temp).microLabel =
      if a.study_type = "DP"
        then temp ++ ", " ++ ratRender tp ++ unitSuffix (a.time_units.getD i "")
        else temp ++ ", " ++ ratRender tp ++ unitSuffix (a.time_units.getD i "") ++ " DS" := rfl

theorem matrixRecord_storageTemp (a : GenInput) (i : Nat) (tp : ℚ) (j : Nat) (temp : String) :
    (matrixRecord a i tp j temp).storageTemp =
      if a.study_type = "DP" then temp else "" := rfl

theorem matrixRecord_dsTemperature (a : GenInput) (i : Nat) (tp : ℚ) (j : Nat) (temp : String) :
    (matrixRecord a i tp j temp).dsTemperature =
      if a.study_type = "DS" then temp else "" := rfl

theorem matrixRecord_vialOrientation (a : GenInput) (i : Nat) (tp : ℚ) (j : Nat) (temp : String) :
    (matrixRecord a i tp j temp).vialOrientation = a.vial_orientations.getD j "" := rfl

theorem matrixRecord_timePointUnits (a : GenInput) (i : Nat) (tp : ℚ) (j : Nat) (temp : String) :
    (matrixRecord a i tp j temp).timePointUnits = a.time_units.getD i "" := rfl

theorem extraRecord_microLabel (a : GenInput) (j : Nat) (temp : String) (k : Nat) :
    (extraRecord a j temp k).microLabel = temp ++ ", extra" ++ natRender (k + 1) := rfl

theorem extraRecord_storageTemp (a : GenInput) (j : Nat) (temp : String) (k : Nat) :
    (extraRecord a j temp k).storageTemp = if a.study_type = "DP" then temp else "" := rfl

theorem extraRecord_dsTemperature (a : GenInput) (j : Nat) (temp : String) (k : Nat) :
    (extraRecord a j temp k).dsTemperature = if a.study_type = "DS" then temp else "" := rfl

theorem extraRecord_vialOrientation (a : GenInput) (j : Nat) (temp : String) (k : Nat) :
    (extraRecord a j temp k).vialOrientation = a.vial_orientations.getD j "" := rfl

/-- C7: records are emitted in a fixed order — exactly one T0 record
first, then the matrix-expansion records (time points in list order,
temperatures in list order within each time point), then the extra-vial
records (temperatures in list order, extra indices ascending). -/
theorem C7_emission_order (a : GenInput) :
    generate_stability_samples a = t0Record a :: (matrixRecords a ++ extraRecords a) :=
  generate_eq_phases a

/-- C3: every emitted record carries the concentration resolved once per
call — the formulation override when it is present and positive (the
form stores `form_conc` when `form_conc > 0`, else `None`), otherwise
the context default; an override ≤ 0 therefore falls back to the
default. -/
theorem C3_concentration_resolution (a : GenInput) (raw : ℚ)
    (hconc : a.formulation_conc = formConcOverride raw) :
    ∀ r ∈ generate_stability_samples a,
      r.conc = if 0 < raw then raw else a.conc := by
  intro r hr
  rw [conc_of_mem hr, hconc, formConcOverride]
  by_cases h : raw > 0
  · rw [if_pos h, if_pos h]
    show (if raw = 0 then a.conc else raw) = raw
    rw [if_neg (by exact ne_of_gt h)]
  · rw [if_neg h, if_neg h]
    rfl

theorem C3_concentration_resolution_witness :
    (exampleInput.formulation_conc = formConcOverride 0) ∧
    ∀ r ∈ generate_stability_samples exampleInput,
      r.conc = if 0 < (0 : ℚ) then (0 : ℚ) else exampleInput.conc :=
  ⟨by decide, C3_concentration_resolution exampleInput 0 (by decide)⟩

/-- C1 (counterexample): it is not the case that every emitted record
has exactly one of the storage-temperature and DS-temperature fields
populated — the T0 record of the spec's own worked example has both
fields empty. -/
theorem C1_counterexample :
    ¬ ∀ r ∈ generate_stability_samples exampleInput,
        (r.storageTemp ≠ "" ∧ r.dsTemperature = "") ∨
        (r.storageTemp = "" ∧ r.dsTemperature ≠ "") := by
  decide

/-- C1 (amended): the T0 record has neither temperature field
populated; every other emitted record has exactly one of them
populated, determined by the study type — the storage-temperature field
for DP and the DS-temperature field for DS. -/
theorem C1_amended_temperature_fields (a : GenInput)
    (h : a.study_type = "DP" ∨ a.study_type = "DS") :
    ((generate_stability_samples a).head? = some (t0Record a) ∧
      (t0Record a).storageTemp = "" ∧ (t0Record a).dsTemperature = "") ∧
    ∀ r ∈ (generate_stability_samples a).tail,
      if a.study_type = "DP" then r.storageTemp ≠ "" ∧ r.dsTemperature = ""
      else r.storageTemp = "" ∧ r.dsTemperature ≠ "" := by
  constructor
  · rw [generate_eq_phases]
    exact ⟨rfl, rfl, rfl⟩
  · intro r hr
    rw [generate_eq_phases, List.tail_cons] at hr
    have hfields : ∃ temp : String, temp ≠ "" ∧
        r.storageTemp = (if a.study_type = "DP" then temp else "") ∧
        r.dsTemperature = (if a.study_type = "DS" then temp else "") := by
      rcases List.mem_append.mp hr with hm | he
      · obtain ⟨p, _, p2, _, _, h2, _, rfl⟩ := mem_matrixRecords.mp hm
        exact ⟨p2.2, h2, matrixRecord_storageTemp a p.1 p.2 p2.1 p2.2,
          matrixRecord_dsTemperature a p.1 p.2 p2.1 p2.2⟩
      · obtain ⟨p, _, h2, k, _, rfl⟩ := mem_extraRecords.mp he
        exact ⟨p.2, h2, extraRecord_storageTemp a p.1 p.2 k,
          extraRecord_dsTemperature a p.1 p.2 k⟩
    obtain ⟨temp, htemp, hs, hd⟩ := hfields
    rcases h with hDP | hDS
    · rw [if_pos hDP]
      rw [hDP] at hs hd
      simp only [if_pos rfl] at hs
      simp only [show ("DP" = "DS") = False by simp, if_false] at hd
      exact ⟨hs ▸ htemp, hd⟩
    · have hne : a.study_type ≠ "DP" := by rw [hDS]; decide
      rw [if_neg hne]
      rw [hDS] at hs hd
      simp only [show ("DS" = "DP") = False by simp, if_false] at hs
      simp only [if_pos rfl] at hd
      exact ⟨hs, hd ▸ htemp⟩

theorem C1_amended_temperature_fields_witness :
    (exampleInput.study_type = "DP" ∨ exampleInput.study_type = "DS") ∧
    (((generate_stability_samples exampleInput).head? = some (t0Record exampleInput) ∧
      (t0Record exampleInput).storageTemp = "" ∧
      (t0Record exampleInput).dsTemperature = "") ∧
    ∀ r ∈ (generate_stability_samples exampleInput).tail,
      if exampleInput.study_type = "DP"
        then r.storageTemp ≠ "" ∧ r.dsTemperature = ""
        else r.storageTemp = "" ∧ r.dsTemperature ≠ "") :=
  ⟨Or.inl rfl, C1_amended_temperature_fields exampleInput (Or.inl rfl)⟩

/-- A DS-call where a non-empty vial-orientation list is passed to the
generator (the surrounding application never does this: it passes `[]`
for DS). -/
def dsOrientationInput : GenInput where
  exp_id := "EXP1"
  molecule := "mAb1"
  source := "SrcA"
  parent := "P1"
  create_date := "2024-01-01"
  conc := 100
  formulation := "F1"
  formulation_parent := ""
  formulation_conc := none
  time_points := [1]
  time_units := ["month"]
  temperatures := ["2-8°C"]
  vial_orientations := ["upright"]
  matrix := [[true]]
  extra_vials := [0]
  study_type := "DS"

/-- C2 (counterexample): a DS call does not leave the vial-orientation
field empty regardless of the `vialOrientations` list — the generator
copies the orientation aligned by temperature index independently of
the study type, so a DS call passed `["upright"]` emits a record with
vial orientation `upright`. -/
theorem C2_counterexample :
    ¬ ∀ r ∈ generate_stability_samples dsOrientationInput, r.vialOrientation = "" := by
  decide

/-- C2 (amended): for a DS call whose `vialOrientations` list is empty —
which is what the application always passes for DS — every emitted
record has an empty vial-orientation field.  (The generator itself
copies orientations by temperature index regardless of study type.) -/
theorem C2_amended_ds_empty_orientation (a : GenInput)
    (hst : a.study_type = "DS") (hv : a.vial_orientations = []) :
    ∀ r ∈ generate_stability_samples a, r.vialOrientation = "" := by
  intro r hr
  rw [generate_eq_phases] at hr
  rcases List.mem_cons.mp hr with rfl | hr
  · exact t0Record_vialOrientation a
  · rcases List.mem_append.mp hr with hm | he
    · obtain ⟨p, _, p2, _, _, _, _, rfl⟩ := mem_matrixRecords.mp hm
      rw [matrixRecord_vialOrientation, hv]
      rfl
    · obtain ⟨p, _, _, k, _, rfl⟩ := mem_extraRecords.mp he
      rw [extraRecord_vialOrientation, hv]
      rfl

/-- A DS-call with the empty vial-orientation list the application
passes for DS. -/
def dsEmptyOrientationInput : GenInput where
  exp_id := "EXP1"
  molecule := "mAb1"
  source := "SrcA"
  parent := "P1"
  create_date := "2024-01-01"
  conc := 100
  formulation := "F1"
  formulation_parent := ""
  formulation_conc := none
  time_points := [1]
  time_units := ["month"]
  temperatures := ["2-8°C"]
  vial_orientations := []
  matrix := [[true]]
  extra_vials := [1]
  study_type := "DS"

theorem C2_amended_ds_empty_orientation_witness :
    (dsEmptyOrientationInput.study_type = "DS") ∧
    (dsEmptyOrientationInput.vial_orientations = []) ∧
    ∀ r ∈ generate_stability_samples dsEmptyOrientationInput, r.vialOrientation = "" :=
  ⟨rfl, rfl, C2_amended_ds_empty_orientation dsEmptyOrientationInput rfl rfl⟩

theorem enumFrom_map_eq_range_map {α β : Type} (d : α) :
    ∀ (l : List α) (n : Nat) (h : Nat × α → β),
      (l.enumFrom n).map h = (List.range l.length).map (fun i => h (n + i, l.getD i d)) := by
  intro l
  induction l with
  | nil =>
    intro n h
    simp
  | cons x t ih =>
    intro n h
    rw [List.enumFrom_cons, List.map_cons, List.length_cons, List.range_succ_eq_map,
      List.map_cons, List.map_map]
    refine congrArg₂ List.cons ?_ ?_
    · simp
    · rw [ih (n + 1) h]
      refine List.map_congr_left ?_
      intro i hi
      simp only [Function.comp_apply, List.getD_cons_succ]
      congr 2
      omega

theorem enum_map_eq_range_map {α β : Type} (d : α) (l : List α) (h : Nat × α → β) :
    l.enum.map h = (List.range l.length).map (fun i => h (i, l.getD i d)) := by
  have := enumFrom_map_eq_range_map d l 0 h
  simpa [List.enum] using this

/-- C5: the number of matrix-expansion records (the records other than
the T0 record and the extra-vial records) equals the number of `true`
selection-matrix cells whose indices are within both the time-point and
the temperature list lengths, excluding cells with a zero time-point
value or an empty temperature label. -/
theorem C5_matrix_record_count (a : GenInput) :
    (matrixRecords a).length = selectedCellCount a.time_points a.temperatures a.matrix ∧
    (generate_stability_samples a).length =
      1 + (matrixRecords a).length + (extraRecords a).length := by
  constructor
  · rw [matrixRecords, List.length_flatMap, enum_map_eq_range_map (0 : ℚ), selectedCellCount]
    refine congrArg List.sum (List.map_congr_left ?_)
    intro i hi
    simp only [Function.comp_apply]
    by_cases h0 : a.time_points.getD i 0 = 0
    · rw [if_pos h0]
      have hz : ∀ j ∈ List.range a.temperatures.length,
          (if a.time_points.getD i 0 ≠ 0 ∧ a.temperatures.getD j "" ≠ "" ∧
              (a.matrix.getD i []).getD j false = true then 1 else 0) = 0 := by
        intro j _
        exact if_neg (fun hcon => hcon.1 h0)
      rw [List.map_congr_left hz]
      simp
    · rw [if_neg h0]
      rw [List.length_flatMap, enum_map_eq_range_map ("" : String)]
      refine congrArg List.sum (List.map_congr_left ?_)
      intro j hj
      simp only [Function.comp_apply]
      by_cases h2 : a.temperatures.getD j "" = ""
      · rw [if_pos h2, if_neg (fun hcon => hcon.2.1 h2)]
        rfl
      · rw [if_neg h2]
        by_cases h3 : (a.matrix.getD i []).getD j false
        · rw [if_pos h3, if_pos ⟨h0, h2, h3⟩]
          rfl
        · rw [if_neg h3, if_neg (fun hcon => h3 hcon.2.2)]
          rfl
  · rw [generate_eq_phases]
    simp [List.length_append]
    omega

theorem C5_matrix_record_count_witness :
    (matrixRecords exampleInput).length =
      selectedCellCount exampleInput.time_points exampleInput.temperatures
        exampleInput.matrix ∧
    (generate_stability_samples exampleInput).length =
      1 + (matrixRecords exampleInput).length + (extraRecords exampleInput).length :=
  C5_matrix_record_count exampleInput

/-- C8: for every temperature condition (all labels non-empty, as drawn
from the controlled vocabulary) the number of extra-vial records emitted
for it equals `max 0 extraVialCount`, and the total number of extra-vial
records is the sum of these per-temperature counts. -/
theorem C8_extra_vial_counts (a : GenInput)
    (htemps : ∀ t ∈ a.temperatures, t ≠ "") :
    (∀ j, j < a.temperatures.length →
      ((extraRecordsFor a j (a.temperatures.getD j "")).length : ℤ)
        = max 0 (a.extra_vials.getD j 0)) ∧
    (extraRecords a).length
      = ((List.range a.temperatures.length).map (fun j =>
          (extraRecordsFor a j (a.temperatures.getD j "")).length)).sum := by
  constructor
  · intro j hj
    have hmem : a.temperatures.getD j "" ∈ a.temperatures := by
      rw [List.getD_eq_getElem _ _ hj]
      exact List.getElem_mem hj
    have htemp : a.temperatures.getD j "" ≠ "" := htemps _ hmem
    rw [extraRecordsFor, if_neg htemp]
    rw [List.length_map, List.length_range]
    rw [Int.toNat_eq_max, max_comm]
  · rw [extraRecords, List.length_flatMap, enum_map_eq_range_map ("" : String)]
    rfl

theorem C8_extra_vial_counts_witness :
    (∀ t ∈ dsEmptyOrientationInput.temperatures, t ≠ "") ∧
    ((∀ j, j < dsEmptyOrientationInput.temperatures.length →
      ((extraRecordsFor dsEmptyOrientationInput j
          (dsEmptyOrientationInput.temperatures.getD j "")).length : ℤ)
        = max 0 (dsEmptyOrientationInput.extra_vials.getD j 0)) ∧
    (extraRecords dsEmptyOrientationInput).length
      = ((List.range dsEmptyOrientationInput.temperatures.length).map (fun j =>
          (extraRecordsFor dsEmptyOrientationInput j
            (dsEmptyOrientationInput.temperatures.getD j "")).length)).sum) :=
  ⟨by decide, C8_extra_vial_counts dsEmptyOrientationInput (by decide)⟩

theorem string_append_empty (s : String) : s ++ "" = s := by
  apply strData_inj
  rw [strData_append]
  exact List.append_nil _

/-- C10: when the `timeUnits` list is shorter than the `timePoints`
list, a selected cell at a time-point index beyond the end of
`timeUnits` is still emitted — with an empty time-unit field and a
micro-label with no unit suffix (`"{temperature}, {timeValue}"` for DP,
the same with the trailing `" DS"` marker otherwise) — rather than
being skipped or raising an error. -/
theorem C10_missing_time_units (a : GenInput) (i j : Nat)
    (hi : i < a.time_points.length) (hu : a.time_units.length ≤ i)
    (hj : j < a.temperatures.length)
    (htp : a.time_points.getD i 0 ≠ 0) (htemp : a.temperatures.getD j "" ≠ "")
    (hsel : (a.matrix.getD i []).getD j false = true) :
    matrixRecord a i (a.time_points.getD i 0) j (a.temperatures.getD j "")
        ∈ generate_stability_samples a ∧
    (matrixRecord a i (a.time_points.getD i 0) j (a.temperatures.getD j "")).timePointUnits
        = "" ∧
    (if a.study_type = "DP"
      then (matrixRecord a i (a.time_points.getD i 0) j
          (a.temperatures.getD j "")).microLabel
        = a.temperatures.getD j "" ++ ", " ++ ratRender (a.time_points.getD i 0)
      else (matrixRecord a i (a.time_points.getD i 0) j
          (a.temperatures.getD j "")).microLabel
        = a.temperatures.getD j "" ++ ", " ++ ratRender (a.time_points.getD i 0)
            ++ " DS") := by
  have hunits : a.time_units.getD i "" = "" := List.getD_eq_default _ _ hu
  refine ⟨?_, ?_, ?_⟩
  · rw [generate_eq_phases]
    refine List.mem_cons_of_mem _ (List.mem_append_left _ ?_)
    refine mem_matrixRecords.mpr ?_
    exact ⟨(i, a.time_points.getD i 0), getD_mem_enum 0 _ i hi,
      (j, a.temperatures.getD j ""), getD_mem_enum "" _ j hj, htp, htemp, hsel, rfl⟩
  · rw [matrixRecord_timePointUnits, hunits]
  · by_cases hDP : a.study_type = "DP"
    · rw [if_pos hDP, matrixRecord_microLabel, if_pos hDP, hunits]
      rw [show unitSuffix "" = "" from rfl, string_append_empty]
    · rw [if_neg hDP, matrixRecord_microLabel, if_neg hDP, hunits]
      rw [show unitSuffix "" = "" from rfl, string_append_empty]

/-- The worked example with an empty `timeUnits` list. -/
def missingUnitsInput : GenInput := { exampleInput with time_units := [] }

/-- A DS call with an empty `timeUnits` list. -/
def missingUnitsDsInput : GenInput :=
  { exampleInput with time_units := [], vial_orientations := [], study_type := "DS" }

theorem C10_missing_time_units_witness :
    ((0 < missingUnitsInput.time_points.length) ∧
    (missingUnitsInput.time_units.length ≤ 0) ∧
    (0 < missingUnitsInput.temperatures.length) ∧
    (missingUnitsInput.time_points.getD 0 0 ≠ 0) ∧
    (missingUnitsInput.temperatures.getD 0 "" ≠ "") ∧
    ((missingUnitsInput.matrix.getD 0 []).getD 0 false = true) ∧
    (matrixRecord missingUnitsInput 0 (missingUnitsInput.time_points.getD 0 0) 0
        (missingUnitsInput.temperatures.getD 0 "")
        ∈ generate_stability_samples missingUnitsInput ∧
      (matrixRecord missingUnitsInput 0 (missingUnitsInput.time_points.getD 0 0) 0
        (missingUnitsInput.temperatures.getD 0 "")).timePointUnits = "" ∧
      (if missingUnitsInput.study_type = "DP"
        then (matrixRecord missingUnitsInput 0 (missingUnitsInput.time_points.getD 0 0) 0
            (missingUnitsInput.temperatures.getD 0 "")).microLabel
          = missingUnitsInput.temperatures.getD 0 "" ++ ", " ++
              ratRender (missingUnitsInput.time_points.getD 0 0)
        else (matrixRecord missingUnitsInput 0 (missingUnitsInput.time_points.getD 0 0) 0
            (missingUnitsInput.temperatures.getD 0 "")).microLabel
          = missingUnitsInput.temperatures.getD 0 "" ++ ", " ++
              ratRender (missingUnitsInput.time_points.getD 0 0) ++ " DS"))) ∧
    ((0 < missingUnitsDsInput.time_points.length) ∧
    (missingUnitsDsInput.time_units.length ≤ 0) ∧
    (0 < missingUnitsDsInput.temperatures.length) ∧
    (missingUnitsDsInput.time_points.getD 0 0 ≠ 0) ∧
    (missingUnitsDsInput.temperatures.getD 0 "" ≠ "") ∧
    ((missingUnitsDsInput.matrix.getD 0 []).getD 0 false = true) ∧
    (matrixRecord missingUnitsDsInput 0 (missingUnitsDsInput.time_points.getD 0 0) 0
        (missingUnitsDsInput.temperatures.getD 0 "")
        ∈ generate_stability_samples missingUnitsDsInput ∧
      (matrixRecord missingUnitsDsInput 0 (missingUnitsDsInput.time_points.getD 0 0) 0
        (missingUnitsDsInput.temperatures.getD 0 "")).timePointUnits = "" ∧
      (if missingUnitsDsInput.study_type = "DP"
        then (matrixRecord missingUnitsDsInput 0 (missingUnitsDsInput.time_points.getD 0 0) 0
            (missingUnitsDsInput.temperatures.getD 0 "")).microLabel
          = missingUnitsDsInput.temperatures.getD 0 "" ++ ", " ++
              ratRender (missingUnitsDsInput.time_points.getD 0 0)
        else (matrixRecord missingUnitsDsInput 0 (missingUnitsDsInput.time_points.getD 0 0) 0
            (missingUnitsDsInput.temperatures.getD 0 "")).microLabel
          = missingUnitsDsInput.temperatures.getD 0 "" ++ ", " ++
              ratRender (missingUnitsDsInput.time_points.getD 0 0) ++ " DS"))) :=
  ⟨⟨by decide, by decide, by decide, by decide, by decide, by decide,
    C10_missing_time_units missingUnitsInput 0 0 (by decide) (by decide) (by decide)
      (by decide) (by decide) (by decide)⟩,
   ⟨by decide, by decide, by decide, by decide, by decide, by decide,
    C10_missing_time_units missingUnitsDsInput 0 0 (by decide) (by decide) (by decide)
      (by decide) (by decide) (by decide)⟩⟩

/-- C9: one transportation generation emits, per base formulation, one
4-entry block (Control, Transport Rep 1/2/3) for the base formulation
name plus one 4-entry block per surfactant whose formulation name is
the base name concatenated directly with the surfactant name — 4 × (1 +
s) records in total for `s` surfactants. -/
theorem C9_transportation_expansion (exp_id molecule source parent create_date : String)
    (conc : ℚ) (formulation formulation_parent : String) (formulation_conc : Option ℚ)
    (surfactants : List String) :
    (transportation_samples exp_id molecule source parent create_date conc formulation
        formulation_parent formulation_conc surfactants).length
      = 4 * (1 + surfactants.length) ∧
    (transportation_samples exp_id molecule source parent create_date conc formulation
        formulation_parent formulation_conc surfactants).map
        (fun r => (r.formulation, r.transportation))
      = (formulation :: surfactants.map (fun s => formulation ++ s)).flatMap
          (fun nm => transportationVocab.map (fun tl => (nm, tl))) := by
  constructor
  · induction surfactants with
    | nil => rfl
    | cons s rest ih =>
      simp only [transportation_samples, List.flatMap_cons, List.length_append,
        List.length_map, List.length_cons] at ih ⊢
      have h4 : transportationVocab.length = 4 := rfl
      omega
  · show (_ ++ surfactants.flatMap _).map _ = _
    rw [List.map_append, List.map_flatMap, List.flatMap_cons, List.flatMap_map]
    rfl

theorem ratRender_not_mem {q : ℚ} {c : Char} (h1 : c.isDigit = false) (h2 : c ≠ '-')
    (h3 : c ≠ '/') : c ∉ (ratRender q).data := by
  intro hc
  rcases ratRender_chars q c hc with h | h | h
  · rw [h1] at h
    exact Bool.false_ne_true h
  · exact h2 h
  · exact h3 h

theorem natRender_not_mem {n : Nat} {c : Char} (h1 : c.isDigit = false) :
    c ∉ (natRender n).data := by
  intro hc
  have := natRender_isDigit n c hc
  rw [h1] at this
  exact Bool.false_ne_true this

theorem append_singleton_inj {α : Type} {l₁ l₂ : List α} {c₁ c₂ : α}
    (h : l₁ ++ [c₁] = l₂ ++ [c₂]) : l₁ = l₂ ∧ c₁ = c₂ := by
  have hrev := congrArg List.reverse h
  simp only [List.reverse_append, List.reverse_cons, List.reverse_nil, List.nil_append,
    List.singleton_append] at hrev
  rw [List.cons.injEq] at hrev
  exact ⟨List.reverse_injective hrev.2, hrev.1⟩

theorem unitSuffix_cases (u : String) :
    unitSuffix u = "" ∨ unitSuffix u = "w" ∨ unitSuffix u = "m" ∨ unitSuffix u = "y" := by
  unfold unitSuffix
  split
  · right; left; rfl
  · split
    · right; right; left; rfl
    · split
      · right; right; right; rfl
      · left; rfl

/-- A rendered rational followed by a unit suffix determines the
rational (and the suffix): suffix letters never occur in a rendering. -/
theorem render_suffix_inj {q₁ q₂ : ℚ} {s₁ s₂ : String}
    (hs₁ : s₁ = "" ∨ s₁ = "w" ∨ s₁ = "m" ∨ s₁ = "y")
    (hs₂ : s₂ = "" ∨ s₂ = "w" ∨ s₂ = "m" ∨ s₂ = "y")
    (h : (ratRender q₁).data ++ s₁.data = (ratRender q₂).data ++ s₂.data) :
    q₁ = q₂ := by
  have hq : (ratRender q₁).data = (ratRender q₂).data → q₁ = q₂ := fun hh =>
    ratRender_inj (strData_inj hh)
  have hletter : ∀ (c : Char), c = 'w' ∨ c = 'm' ∨ c = 'y' →
      ∀ q : ℚ, c ∉ (ratRender q).data := by
    intro c hc q
    rcases hc with rfl | rfl | rfl <;>
      exact ratRender_not_mem (by decide) (by decide) (by decide)
  have hcase : ∀ (q q' : ℚ) (c : Char), c = 'w' ∨ c = 'm' ∨ c = 'y' →
      (ratRender q).data = (ratRender q').data ++ [c] → False := by
    intro q q' c hc hh
    apply hletter c hc q
    rw [hh]
    exact List.mem_append_right _ (List.mem_cons_self _ _)
  rcases hs₁ with rfl | rfl | rfl | rfl <;> rcases hs₂ with rfl | rfl | rfl | rfl <;>
      simp only [show ("" : String).data = [] from rfl, show ("w" : String).data = ['w'] from rfl,
        show ("m" : String).data = ['m'] from rfl, show ("y" : String).data = ['y'] from rfl,
        List.append_nil] at h
  · exact hq h
  · exact absurd h (fun hh => hcase _ _ _ (Or.inl rfl) hh)
  · exact absurd h (fun hh => hcase _ _ _ (Or.inr (Or.inl rfl)) hh)
  · exact absurd h (fun hh => hcase _ _ _ (Or.inr (Or.inr rfl)) hh)
  · exact absurd h.symm (fun hh => hcase _ _ _ (Or.inl rfl) hh)
  · exact hq (append_singleton_inj h).1
  · exact absurd (append_singleton_inj h).2 (by decide)
  · exact absurd (append_singleton_inj h).2 (by decide)
  · exact absurd h.symm (fun hh => hcase _ _ _ (Or.inr (Or.inl rfl)) hh)
  · exact absurd (append_singleton_inj h).2 (by decide)
  · exact hq (append_singleton_inj h).1
  · exact absurd (append_singleton_inj h).2 (by decide)
  · exact absurd h.symm (fun hh => hcase _ _ _ (Or.inr (Or.inr rfl)) hh)
  · exact absurd (append_singleton_inj h).2 (by decide)
  · exact absurd (append_singleton_inj h).2 (by decide)
  · exact hq (append_singleton_inj h).1

theorem list_append_cancel_left {α : Type} : ∀ {a b c : List α}, a ++ b = a ++ c → b = c := by
  intro a
  induction a with
  | nil =>
    intro b c h
    simpa using h
  | cons x t ih =>
    intro b c h
    rw [List.cons_append, List.cons_append, List.cons.injEq] at h
    exact ih h.2

theorem list_append_cancel_right {α : Type} {a b c : List α} (h : a ++ c = b ++ c) : a = b := by
  have hrev := congrArg List.reverse h
  simp only [List.reverse_append] at hrev
  exact List.reverse_injective (list_append_cancel_left hrev)

/-- The trailing study-type marker of a matrix micro-label: nothing for
DP, `" DS"` otherwise. -/
def dsTail (study_type : String) : List Char :=
  if study_type = "DP" then [] else [' ', 'D', 'S']

theorem dsTail_no_comma (st : String) : ',' ∉ dsTail st := by
  unfold dsTail
  split <;> decide

theorem unitSuffix_no_comma (u : String) : ',' ∉ (unitSuffix u).data := by
  rcases unitSuffix_cases u with h | h | h | h <;> rw [h] <;> decide

theorem matrixRecord_microLabel_data (a : GenInput) (i : Nat) (tp : ℚ) (j : Nat)
    (temp : String) :
    ((matrixRecord a i tp j temp).microLabel).data
      = temp.data ++ ',' :: (' ' :: ((ratRender tp).data ++
          ((unitSuffix (a.time_units.getD i "")).data ++ dsTail a.study_type))) := by
  rw [matrixRecord_microLabel]
  unfold dsTail
  by_cases hDP : a.study_type = "DP"
  · rw [if_pos hDP, if_pos hDP]
    simp [strData_append, show (", " : String).data = [',', ' '] from rfl]
  · rw [if_neg hDP, if_neg hDP]
    simp [strData_append, show (", " : String).data = [',', ' '] from rfl,
      show (" DS" : String).data = [' ', 'D', 'S'] from rfl]

theorem extraRecord_microLabel_data (a : GenInput) (j : Nat) (temp : String) (k : Nat) :
    ((extraRecord a j temp k).microLabel).data
      = temp.data ++ ',' ::
          (' ' :: ('e' :: ('x' :: ('t' :: ('r' :: ('a' :: (natRender (k + 1)).data)))))) := by
  rw [extraRecord_microLabel]
  simp [strData_append,
    show (", extra" : String).data = [',', ' ', 'e', 'x', 't', 'r', 'a'] from rfl]

theorem matrix_rest_no_comma (tp : ℚ) (u st : String) :
    ',' ∉ (' ' :: ((ratRender tp).data ++ ((unitSuffix u).data ++ dsTail st))) := by
  intro h
  rcases List.mem_cons.mp h with h | h
  · exact absurd h (by decide)
  · rcases List.mem_append.mp h with h | h
    · exact ratRender_not_mem (by decide) (by decide) (by decide) h
    · rcases List.mem_append.mp h with h | h
      · exact unitSuffix_no_comma u h
      · exact dsTail_no_comma st h

theorem extra_rest_no_comma (k : Nat) :
    ',' ∉ (' ' :: ('e' :: ('x' :: ('t' :: ('r' :: ('a' :: (natRender (k + 1)).data)))))) := by
  intro h
  simp only [List.mem_cons] at h
  rcases h with h | h | h | h | h | h | h
  · exact absurd h (by decide)
  · exact absurd h (by decide)
  · exact absurd h (by decide)
  · exact absurd h (by decide)
  · exact absurd h (by decide)
  · exact absurd h (by decide)
  · exact natRender_not_mem (by decide) h

theorem matrix_label_inj {temp₁ temp₂ : String} {tp₁ tp₂ : ℚ} {u₁ u₂ st : String}
    (h : temp₁.data ++ ',' ::
          (' ' :: ((ratRender tp₁).data ++ ((unitSuffix u₁).data ++ dsTail st)))
       = temp₂.data ++ ',' ::
          (' ' :: ((ratRender tp₂).data ++ ((unitSuffix u₂).data ++ dsTail st)))) :
    temp₁ = temp₂ ∧ tp₁ = tp₂ := by
  have hs := append_cons_inj_right (matrix_rest_no_comma tp₁ u₁ st)
    (matrix_rest_no_comma tp₂ u₂ st) h
  refine ⟨strData_inj hs.1, ?_⟩
  have hb := hs.2
  rw [List.cons.injEq] at hb
  have hb2 := hb.2
  rw [← List.append_assoc, ← List.append_assoc] at hb2
  have hrs := list_append_cancel_right hb2
  exact render_suffix_inj (unitSuffix_cases u₁) (unitSuffix_cases u₂) hrs

theorem extra_label_inj {temp₁ temp₂ : String} {k₁ k₂ : Nat}
    (h : temp₁.data ++ ',' ::
          (' ' :: ('e' :: ('x' :: ('t' :: ('r' :: ('a' :: (natRender (k₁ + 1)).data))))))
       = temp₂.data ++ ',' ::
          (' ' :: ('e' :: ('x' :: ('t' :: ('r' :: ('a' :: (natRender (k₂ + 1)).data))))))) :
    temp₁ = temp₂ ∧ k₁ = k₂ := by
  have hs := append_cons_inj_right (extra_rest_no_comma k₁) (extra_rest_no_comma k₂) h
  refine ⟨strData_inj hs.1, ?_⟩
  have hb := hs.2
  simp only [List.cons.injEq, true_and] at hb
  have := natRender_inj (strData_inj hb)
  omega

theorem matrix_ne_extra_label {temp₁ temp₂ : String} {tp : ℚ} {u st : String} {k : Nat}
    (h : temp₁.data ++ ',' ::
          (' ' :: ((ratRender tp).data ++ ((unitSuffix u).data ++ dsTail st)))
       = temp₂.data ++ ',' ::
          (' ' :: ('e' :: ('x' :: ('t' :: ('r' :: ('a' :: (natRender (k + 1)).data))))))) :
    False := by
  have hs := append_cons_inj_right (matrix_rest_no_comma tp u st) (extra_rest_no_comma k) h
  have hb := hs.2
  rw [List.cons.injEq] at hb
  have hb2 := hb.2
  obtain ⟨c, l, hl, hc⟩ := ratRender_head tp
  rw [hl, List.cons_append, List.cons.injEq] at hb2
  have hce : c = 'e' := hb2.1
  rcases hc with hdig | hdash
  · rw [hce] at hdig
    exact absurd hdig (by decide)
  · rw [hce] at hdash
    exact absurd hdash (by decide)

theorem t0dp_ne_comma_shape {pre rest : List Char}
    (h : ("t0" : String).data = pre ++ ',' :: rest) : False := by
  have hmem : ',' ∈ ("t0" : String).data := by
    rw [h]
    exact List.mem_append_right _ (List.mem_cons_self _ _)
  exact absurd hmem (by decide)

theorem t0ds_data : ("t0, DS" : String).data = ("t0" : String).data ++ ',' :: [' ', 'D', 'S'] :=
  rfl

theorem t0ds_ne_matrix_label {temp : String} {tp : ℚ} {u st : String}
    (h : ("t0, DS" : String).data
       = temp.data ++ ',' ::
          (' ' :: ((ratRender tp).data ++ ((unitSuffix u).data ++ dsTail st)))) : False := by
  rw [t0ds_data] at h
  have hs := append_cons_inj_right (by decide) (matrix_rest_no_comma tp u st) h
  have hb := hs.2
  rw [List.cons.injEq] at hb
  have hb2 := hb.2
  obtain ⟨c, l, hl, hc⟩ := ratRender_head tp
  rw [hl, List.cons_append, List.cons.injEq] at hb2
  have hce : c = 'D' := hb2.1.symm
  rcases hc with hdig | hdash
  · rw [hce] at hdig
    exact absurd hdig (by decide)
  · rw [hce] at hdash
    exact absurd hdash (by decide)

theorem t0ds_ne_extra_label {temp : String} {k : Nat}
    (h : ("t0, DS" : String).data
       = temp.data ++ ',' ::
          (' ' :: ('e' :: ('x' :: ('t' :: ('r' :: ('a' :: (natRender (k + 1)).data))))))) :
    False := by
  rw [t0ds_data] at h
  have hs := append_cons_inj_right (by decide) (extra_rest_no_comma k) h
  have hb := hs.2
  rw [List.cons.injEq] at hb
  have hb2 := hb.2
  rw [List.cons.injEq] at hb2
  exact absurd hb2.1 (by decide)

theorem snd_mem_of_mem_enumFrom {α : Type} :
    ∀ {l : List α} {n : Nat} {p : Nat × α}, p ∈ l.enumFrom n → p.2 ∈ l := by
  intro l
  induction l with
  | nil =>
    intro n p hp
    simp at hp
  | cons x t ih =>
    intro n p hp
    rw [List.enumFrom_cons, List.mem_cons] at hp
    rcases hp with rfl | hp
    · exact List.mem_cons_self _ _
    · exact List.mem_cons_of_mem _ (ih hp)

theorem pairwise_enumFrom_snd {α : Type} {R : α → α → Prop} :
    ∀ {l : List α} (n : Nat), l.Pairwise R →
      (l.enumFrom n).Pairwise (fun p q => R p.2 q.2) := by
  intro l
  induction l with
  | nil =>
    intro n _
    simp
  | cons x t ih =>
    intro n h
    rcases List.pairwise_cons.mp h with ⟨hx, ht⟩
    rw [List.enumFrom_cons]
    refine List.pairwise_cons.mpr ⟨?_, ih (n + 1) ht⟩
    intro q hq
    exact hx q.2 (snd_mem_of_mem_enumFrom hq)

theorem pairwise_enum_snd {α : Type} {R : α → α → Prop} {l : List α} (h : l.Pairwise R) :
    l.enum.Pairwise (fun p q => R p.2 q.2) :=
  pairwise_enumFrom_snd 0 h

theorem mem_matrix_cell {a : GenInput} {p : Nat × ℚ} {p2 : Nat × String} {s : String}
    (hs : s ∈ List.map SampleRecord.microLabel
        (if p2.2 = "" then []
         else if (a.matrix.getD p.1 []).getD p2.1 false then
           [matrixRecord a p.1 p.2 p2.1 p2.2]
         else [])) :
    p2.2 ≠ "" ∧ (a.matrix.getD p.1 []).getD p2.1 false = true ∧
      s = (matrixRecord a p.1 p.2 p2.1 p2.2).microLabel := by
  by_cases h2 : p2.2 = ""
  · rw [if_pos h2] at hs
    simp at hs
  · rw [if_neg h2] at hs
    by_cases h3 : (a.matrix.getD p.1 []).getD p2.1 false
    · rw [if_pos h3] at hs
      rw [List.map_singleton, List.mem_singleton] at hs
      exact ⟨h2, h3, hs⟩
    · rw [if_neg h3] at hs
      simp at hs

theorem mem_matrix_phase_labels {a : GenInput} {p : Nat × ℚ} {s : String}
    (hs : s ∈ List.map SampleRecord.microLabel
        (if p.2 = 0 then []
         else a.temperatures.enum.flatMap (fun p2 =>
           if p2.2 = "" then []
           else if (a.matrix.getD p.1 []).getD p2.1 false then
             [matrixRecord a p.1 p.2 p2.1 p2.2]
           else []))) :
    p.2 ≠ 0 ∧ ∃ p2 ∈ a.temperatures.enum, p2.2 ≠ "" ∧
      (a.matrix.getD p.1 []).getD p2.1 false = true ∧
      s = (matrixRecord a p.1 p.2 p2.1 p2.2).microLabel := by
  by_cases h0 : p.2 = 0
  · rw [if_pos h0] at hs
    simp at hs
  · rw [if_neg h0, List.map_flatMap, List.mem_flatMap] at hs
    obtain ⟨p2, hp2, hs⟩ := hs
    exact ⟨h0, p2, hp2, mem_matrix_cell hs⟩

theorem mem_extra_phase_labels {a : GenInput} {p : Nat × String} {s : String}
    (hs : s ∈ List.map SampleRecord.microLabel (extraRecordsFor a p.1 p.2)) :
    p.2 ≠ "" ∧ ∃ k < (a.extra_vials.getD p.1 0).toNat,
      s = (extraRecord a p.1 p.2 k).microLabel := by
  unfold extraRecordsFor at hs
  by_cases h2 : p.2 = ""
  · rw [if_pos h2] at hs
    simp at hs
  · rw [if_neg h2, List.map_map, List.mem_map] at hs
    obtain ⟨k, hk, hs⟩ := hs
    exact ⟨h2, k, List.mem_range.mp hk, hs.symm⟩

/-- The worked example with a duplicated time point: two selected cells
with the same value and unit produce the same micro-label. -/
def duplicateTimePointInput : GenInput :=
  { exampleInput with
    time_points := [1, 1]
    time_units := ["month", "month"]
    matrix := [[true], [true]] }

/-- C4 (counterexample): micro-labels are not unique within one
formulation's generation call for every input meeting the generator's
preconditions — duplicating a time-point value (two rows with value 1,
unit month) yields two records with micro-label `2-8°C, 1m`. -/
theorem C4_counterexample :
    ¬ (List.map SampleRecord.microLabel
        (generate_stability_samples duplicateTimePointInput)).Nodup := by
  decide

/-- C4 (amended): within one generation call no two emitted records
share a micro-label, provided the nonzero time-point values are
pairwise distinct and the non-empty temperature labels are pairwise
distinct (each time-point/temperature pair and each extra-vial index
then produces a distinct suffix). -/
theorem C4_amended_micro_labels_distinct (a : GenInput)
    (htp : a.time_points.Pairwise fun x y => x ≠ 0 → y ≠ 0 → x ≠ y)
    (htemp : a.temperatures.Pairwise fun x y => x ≠ "" → y ≠ "" → x ≠ y) :
    (List.map SampleRecord.microLabel (generate_stability_samples a)).Nodup := by
  have htpE := pairwise_enum_snd htp
  have htempE := pairwise_enum_snd htemp
  rw [generate_eq_phases, List.map_cons, List.map_append, List.nodup_cons]
  constructor
  · intro hmem
    rcases List.mem_append.mp hmem with hm | he
    · rw [matrixRecords, List.map_flatMap, List.mem_flatMap] at hm
      obtain ⟨p, hp, hm⟩ := hm
      obtain ⟨h0, p2, hp2, h2, h3, hlab⟩ := mem_matrix_phase_labels hm
      have hd := congrArg String.data hlab
      rw [matrixRecord_microLabel_data, t0Record_microLabel] at hd
      by_cases hDP : a.study_type = "DP"
      · rw [if_pos hDP] at hd
        exact t0dp_ne_comma_shape hd
      · rw [if_neg hDP] at hd
        exact t0ds_ne_matrix_label hd
    · rw [extraRecords, List.map_flatMap, List.mem_flatMap] at he
      obtain ⟨p, hp, he⟩ := he
      obtain ⟨h2, k, hk, hlab⟩ := mem_extra_phase_labels he
      have hd := congrArg String.data hlab
      rw [extraRecord_microLabel_data, t0Record_microLabel] at hd
      by_cases hDP : a.study_type = "DP"
      · rw [if_pos hDP] at hd
        exact t0dp_ne_comma_shape hd
      · rw [if_neg hDP] at hd
        exact t0ds_ne_extra_label hd
  · rw [List.nodup_append]
    refine ⟨?_, ?_, ?_⟩
    · rw [matrixRecords, List.map_flatMap, List.nodup_flatMap]
      constructor
      · intro p hp
        by_cases h0 : p.2 = 0
        · rw [if_pos h0]
          simp
        · rw [if_neg h0, List.map_flatMap, List.nodup_flatMap]
          constructor
          · intro p2 hp2
            by_cases h2 : p2.2 = ""
            · rw [if_pos h2]
              simp
            · rw [if_neg h2]
              by_cases h3 : (a.matrix.getD p.1 []).getD p2.1 false
              · rw [if_pos h3]
                simp
              · rw [if_neg h3]
                simp
          · refine htempE.imp ?_
            intro p2 q2 hrel
            simp only [Function.onFun]
            intro s hs1 hs2
            obtain ⟨h2a, h3a, hlaba⟩ := mem_matrix_cell hs1
            obtain ⟨h2b, h3b, hlabb⟩ := mem_matrix_cell hs2
            have hd := congrArg String.data (hlaba.symm.trans hlabb)
            rw [matrixRecord_microLabel_data, matrixRecord_microLabel_data] at hd
            exact hrel h2a h2b (matrix_label_inj hd).1
      · refine htpE.imp ?_
        intro p q hrel
        simp only [Function.onFun]
        intro s hs1 hs2
        obtain ⟨h0a, p2, hp2, h2a, h3a, hlaba⟩ := mem_matrix_phase_labels hs1
        obtain ⟨h0b, q2, hq2, h2b, h3b, hlabb⟩ := mem_matrix_phase_labels hs2
        have hd := congrArg String.data (hlaba.symm.trans hlabb)
        rw [matrixRecord_microLabel_data, matrixRecord_microLabel_data] at hd
        exact hrel h0a h0b (matrix_label_inj hd).2
    · rw [extraRecords, List.map_flatMap, List.nodup_flatMap]
      constructor
      · intro p hp
        unfold extraRecordsFor
        by_cases h2 : p.2 = ""
        · rw [if_pos h2]
          simp
        · rw [if_neg h2, List.map_map]
          refine List.Nodup.map_on ?_ (List.nodup_range _)
          intro k₁ _ k₂ _ hf
          simp only [Function.comp_apply] at hf
          have hd := congrArg String.data hf
          rw [extraRecord_microLabel_data, extraRecord_microLabel_data] at hd
          exact (extra_label_inj hd).2
      · refine htempE.imp ?_
        intro p q hrel
        simp only [Function.onFun]
        intro s hs1 hs2
        obtain ⟨h2a, k₁, hk₁, hlaba⟩ := mem_extra_phase_labels hs1
        obtain ⟨h2b, k₂, hk₂, hlabb⟩ := mem_extra_phase_labels hs2
        have hd := congrArg String.data (hlaba.symm.trans hlabb)
        rw [extraRecord_microLabel_data, extraRecord_microLabel_data] at hd
        exact hrel h2a h2b (extra_label_inj hd).1
    · intro s hs1 hs2
      rw [matrixRecords, List.map_flatMap, List.mem_flatMap] at hs1
      obtain ⟨p, hp, hs1⟩ := hs1
      obtain ⟨h0, p2, hp2, h2, h3, hlaba⟩ := mem_matrix_phase_labels hs1
      rw [extraRecords, List.map_flatMap, List.mem_flatMap] at hs2
      obtain ⟨q, hq, hs2⟩ := hs2
      obtain ⟨h2b, k, hk, hlabb⟩ := mem_extra_phase_labels hs2
      have hd := congrArg String.data (hlaba.symm.trans hlabb)
      rw [matrixRecord_microLabel_data, extraRecord_microLabel_data] at hd
      exact matrix_ne_extra_label hd

/-- A DP call exercising several time points, temperatures and extra
vials at once. -/
def richInput : GenInput :=
  { exampleInput with
    time_points := [1, 3]
    time_units := ["month", "week"]
    temperatures := ["2-8°C", "25°C"]
    vial_orientations := ["upright", ""]
    matrix := [[true, true], [false, true]]
    extra_vials := [2, 0] }

theorem C4_amended_micro_labels_distinct_witness :
    (richInput.time_points.Pairwise fun x y => x ≠ 0 → y ≠ 0 → x ≠ y) ∧
    (richInput.temperatures.Pairwise fun x y => x ≠ "" → y ≠ "" → x ≠ y) ∧
    (List.map SampleRecord.microLabel (generate_stability_samples richInput)).Nodup :=
  ⟨by decide, by decide, C4_amended_micro_labels_distinct richInput (by decide) (by decide)⟩
